import Mathlib

/-!
Verification of the CADE text-extraction engine (`src/data_processing/extractor.py`)
and the inference entry point (`src/data_processing/inference.py`).

Texts are lists of characters; Python `None`-or-value results are `Option`;
Python floats are modelled as exact rationals (`ℚ`).  The regular expressions
of the source are embedded as an explicit AST (`RE`) together with a fueled
backtracking matcher (`mtch`) that reproduces Python `re`'s leftmost /
greedy / left-alternative preference order, `re.search` scanning and
`re.findall` non-overlapping scanning with single-group capture.
-/

/-- Characters matched by Python `\s` (ASCII whitespace; the repository's
texts and patterns contain only ASCII spaces). -/
def isPySpace (c : Char) : Bool :=
  c == ' ' || c == '\t' || c == '\n' || c == '\r' || c == '\x0b' || c == '\x0c'

/-- Lowercasing of one character, modelling Python `str.lower` on ASCII and on
the accented letters occurring in this repository's patterns and texts. -/
def pyLower1 (c : Char) : Char :=
  if c = 'Á' then 'á' else if c = 'Â' then 'â' else if c = 'Ã' then 'ã' else
  if c = 'À' then 'à' else if c = 'É' then 'é' else if c = 'Ê' then 'ê' else
  if c = 'Í' then 'í' else if c = 'Ó' then 'ó' else if c = 'Ô' then 'ô' else
  if c = 'Õ' then 'õ' else if c = 'Ú' then 'ú' else if c = 'Ç' then 'ç' else
  if 'A' ≤ c ∧ c ≤ 'Z' then Char.ofNat (c.toNat + 32) else c

/-- Python `texto.lower()` over a character list. -/
def pyLower (l : List Char) : List Char := l.map pyLower1

/-- Boolean prefix test on character lists. -/
def isPre : List Char → List Char → Bool
  | [], _ => true
  | _ :: _, [] => false
  | c :: cs, d :: ds => c == d && isPre cs ds

/-- Python `sub in hay` substring containment on character lists. -/
def hasSub (hay sub : List Char) : Bool :=
  isPre sub hay ||
    match hay with
    | [] => false
    | _ :: t => hasSub t sub

/-- Numeric value of a digit string, used to model Python `int()` on the
all-digit captures of the duration pattern `(\d+)`. -/
def digitsToNat (l : List Char) : Nat :=
  l.foldl (fun a c => 10 * a + (c.toNat - 48)) 0

/-- Unsigned body accepted by Python `float()`: `digits [. digits]` or
`. digits`, with at least one digit.  Exponents, `inf`/`nan` and underscores
are omitted: the regex captures being parsed contain only digits, `.` and
`,`, and a `,` makes `float()` fail, as here. -/
def pyFloatCore (body : List Char) : Option ℚ :=
  match body.dropWhile Char.isDigit with
  | [] =>
      if (body.takeWhile Char.isDigit).isEmpty then none
      else some (mkRat (digitsToNat (body.takeWhile Char.isDigit)) 1)
  | '.' :: frac =>
      if frac.all Char.isDigit && !((body.takeWhile Char.isDigit).isEmpty && frac.isEmpty) then
        some (mkRat
          ((digitsToNat (body.takeWhile Char.isDigit) * 10 ^ frac.length +
            digitsToNat frac : Nat) : Int)
          (10 ^ frac.length))
      else none
  | _ => none

/-- Model of Python `float()` on the strings reachable in this repository:
optional surrounding whitespace, optional sign, then the unsigned body
`pyFloatCore`. -/
def pythonFloat (s : List Char) : Option ℚ :=
  let t := ((s.dropWhile isPySpace).reverse.dropWhile isPySpace).reverse
  if t.head? = some '-' then (pyFloatCore t.tail).map (fun q => -q)
  else if t.head? = some '+' then pyFloatCore t.tail
  else pyFloatCore t

/-- Python runtime values that can sit in a table cell. -/
inductive PyVal where
  | vStr : String → PyVal
  | vInt : Int → PyVal
  | vFloat : ℚ → PyVal
  | vNone : PyVal
  | vList : List PyVal → PyVal

/-- Python `isinstance(x, str)`. -/
def PyVal.isStr : PyVal → Bool
  | .vStr _ => true
  | _ => false

/-- Regular-expression AST covering the constructs used by `extractor.py`:
single characters, character classes, concatenation, alternation (preferring
the left branch), greedy `?`, greedy `*`, and the two numbered capture
groups appearing in the source's patterns. -/
inductive RE where
  | chr : Char → RE
  | cls : (Char → Bool) → RE
  | eps : RE
  | seq : RE → RE → RE
  | alt : RE → RE → RE
  | opt : RE → RE
  | star : RE → RE
  | grp1 : RE → RE
  | grp2 : RE → RE

/-- Node count of a regex, used to compute a sufficient fuel bound. -/
def RE.size : RE → Nat
  | .chr _ => 1
  | .cls _ => 1
  | .eps => 1
  | .seq a b => a.size + b.size + 1
  | .alt a b => a.size + b.size + 1
  | .opt a => a.size + 1
  | .star a => a.size + 1
  | .grp1 a => a.size + 1
  | .grp2 a => a.size + 1

/-- Contents of the two capture groups of a match. -/
structure Caps where
  g1 : Option (List Char) := none
  g2 : Option (List Char) := none
deriving DecidableEq

/-- Left-biased choice on `Option`, the backtracking combinator. -/
def obr {β : Type} (a b : Option β) : Option β :=
  match a with
  | some x => some x
  | none => b

/-- Backtracking matcher in continuation-passing style.  `mtch fuel r s cp k`
tries to match `r` against a prefix of `s` with current captures `cp`, calling
the continuation `k` on the remaining suffix and updated captures for each way
of matching, in Python `re`'s preference order (greedy quantifiers longest
first, alternation left first), and returns the first overall success.  Star
iterations that consume nothing are cut off, as Python does to avoid empty
loops.  Fuel only bounds recursion depth; `fuelFor` below always suffices for
the patterns of this repository. -/
def mtch {β : Type} : Nat → RE → List Char → Caps → (List Char → Caps → Option β) → Option β
  | 0, _, _, _, _ => none
  | _ + 1, RE.chr c, s, cp, k =>
      match s with
      | [] => none
      | a :: rest => if a = c then k rest cp else none
  | _ + 1, RE.cls p, s, cp, k =>
      match s with
      | [] => none
      | a :: rest => if p a then k rest cp else none
  | _ + 1, RE.eps, s, cp, k => k s cp
  | fuel + 1, RE.seq a b, s, cp, k =>
      mtch fuel a s cp (fun s1 c1 => mtch fuel b s1 c1 k)
  | fuel + 1, RE.alt a b, s, cp, k =>
      obr (mtch fuel a s cp k) (mtch fuel b s cp k)
  | fuel + 1, RE.opt a, s, cp, k =>
      obr (mtch fuel a s cp k) (k s cp)
  | fuel + 1, RE.star a, s, cp, k =>
      obr (mtch fuel a s cp
            (fun s1 c1 =>
              if s1.length < s.length then mtch fuel (RE.star a) s1 c1 k else none))
          (k s cp)
  | fuel + 1, RE.grp1 a, s, cp, k =>
      mtch fuel a s cp
        (fun s1 c1 => k s1 { c1 with g1 := some (s.take (s.length - s1.length)) })
  | fuel + 1, RE.grp2 a, s, cp, k =>
      mtch fuel a s cp
        (fun s1 c1 => k s1 { c1 with g2 := some (s.take (s.length - s1.length)) })

/-- Fuel sufficient for matching `r` against `s`. -/
def fuelFor (r : RE) (s : List Char) : Nat := (s.length + 1) * (r.size + 1)

/-- First match of `r` anchored at the start of `s`: remaining suffix and
captures. -/
def firstMatchAt (r : RE) (s : List Char) : Option (List Char × Caps) :=
  mtch (fuelFor r s) r s {} (fun s1 c1 => some (s1, c1))

/-- Python `re.search`: captures of the leftmost match of `r` in `s`. -/
def searchCaps (r : RE) : List Char → Option Caps
  | [] =>
      match firstMatchAt r [] with
      | some (_, cp) => some cp
      | none => none
  | c :: rest =>
      match firstMatchAt r (c :: rest) with
      | some (_, cp) => some cp
      | none => searchCaps r rest

/-- Python `re.search(...) is not None`. -/
def searchB (r : RE) (s : List Char) : Bool := (searchCaps r s).isSome

/-- Scanning loop of Python `re.findall`: leftmost matches, non-overlapping,
resuming after each match (advancing by one character on a zero-width match). -/
def findallAux (r : RE) : Nat → List Char → List Caps
  | 0, _ => []
  | n + 1, s =>
      match firstMatchAt r s with
      | some (s1, cp) =>
          if s1.length < s.length then cp :: findallAux r n s1
          else
            match s with
            | [] => [cp]
            | _ :: rest => cp :: findallAux r n rest
      | none =>
          match s with
          | [] => []
          | _ :: rest => findallAux r n rest

/-- Python `re.findall` on a pattern with a single capture group: the list of
group-1 captures of all non-overlapping matches. -/
def findall1 (r : RE) (s : List Char) : List (List Char) :=
  (findallAux r (s.length + 1) s).map (fun cp => cp.g1.getD [])

/-- Literal regex for a list of characters. -/
def listLit : List Char → RE
  | [] => RE.eps
  | c :: cs => RE.seq (RE.chr c) (listLit cs)

/-- Literal regex for a string. -/
def strLit (w : String) : RE := listLit w.toList

/-- Concatenation of a list of regexes. -/
def seqs : List RE → RE
  | [] => RE.eps
  | [r] => r
  | r :: rs => RE.seq r (seqs rs)

/-- Greedy `+` (one or more). -/
def rePlus (r : RE) : RE := RE.seq r (RE.star r)

/-- Regex `\s`. -/
def wsp : RE := RE.cls isPySpace

/-- Regex `\s+`. -/
def sps : RE := rePlus wsp

/-- Regex `\s*`. -/
def sps0 : RE := RE.star wsp

/-- Regex `\d`. -/
def dig : RE := RE.cls Char.isDigit

/-- Regex `[.,]`. -/
def sepCls : RE := RE.cls (fun c => c == '.' || c == ',')

/-- Regex `\d+[.,]?\d*`, the numeral inside the percentage capture groups. -/
def numRE : RE := RE.seq (rePlus dig) (RE.seq (RE.opt sepCls) (RE.star dig))

/-- Regex `\d+[.,]?\d*(?:\.\d+)*`, the numeral inside the currency capture
groups. -/
def numCurRE : RE := RE.seq numRE (RE.star (RE.seq (RE.chr '.') (rePlus dig)))

/-- Three-way alternation, left to right. -/
def alt3 (a b c : RE) : RE := RE.alt a (RE.alt b c)

/-- Regex `(?:do|de|sobre)?`. -/
def doDeSobre : RE := RE.opt (alt3 (strLit "do") (strLit "de") (strLit "sobre"))

/-- Regex `(?:seu)?`. -/
def optSeu : RE := RE.opt (strLit "seu")

/-- Regex `%\s+(?:do|de|sobre)?\s+(?:seu)?\s+faturamento`, the common tail of
seven of the eight percentage patterns. -/
def tailFaturamento : RE :=
  seqs [RE.chr '%', sps, doDeSobre, sps, optSeu, sps, strLit "faturamento"]

/-- Regex `(?:de|no\s+valor\s+de)`. -/
def deOrNoValorDe : RE :=
  RE.alt (strLit "de") (seqs [strLit "no", sps, strLit "valor", sps, strLit "de"])

/-- Regex `(?:de|ao\s+pagamento\s+de)`. -/
def deOrAoPagamentoDe : RE :=
  RE.alt (strLit "de") (seqs [strLit "ao", sps, strLit "pagamento", sps, strLit "de"])

/-- Pattern `multa\s+de\s+(\d+[.,]?\d*)%\s+(?:do|de|sobre)?\s+(?:seu)?\s+faturamento`. -/
def patPct1 : RE :=
  seqs [strLit "multa", sps, strLit "de", sps, RE.grp1 numRE, tailFaturamento]

/-- Pattern `(\d+[.,]?\d*)%\s+(?:do|de|sobre)?\s+(?:seu)?\s+faturamento\s+(?:bruto|líquido)?`. -/
def patPct2 : RE :=
  seqs [RE.grp1 numRE, RE.chr '%', sps, doDeSobre, sps, optSeu, sps,
        strLit "faturamento", sps, RE.opt (RE.alt (strLit "bruto") (strLit "líquido"))]

/-- Pattern `percentual\s+de\s+(\d+[.,]?\d*)%\s+(?:do|de|sobre)?\s+(?:seu)?\s+faturamento`. -/
def patPct3 : RE :=
  seqs [strLit "percentual", sps, strLit "de", sps, RE.grp1 numRE, tailFaturamento]

/-- Pattern `pena\s+pecuniária\s+(?:de|no\s+valor\s+de)\s+(\d+[.,]?\d*)%...faturamento`. -/
def patPct4 : RE :=
  seqs [strLit "pena", sps, strLit "pecuniária", sps, deOrNoValorDe, sps,
        RE.grp1 numRE, tailFaturamento]

/-- Pattern `multa\s+(?:de|no\s+valor\s+de)\s+(\d+[.,]?\d*)%...faturamento`. -/
def patPct5 : RE :=
  seqs [strLit "multa", sps, deOrNoValorDe, sps, RE.grp1 numRE, tailFaturamento]

/-- Pattern `aplicação\s+de\s+multa\s+de\s+(\d+[.,]?\d*)%...faturamento`. -/
def patPct6 : RE :=
  seqs [strLit "aplicação", sps, strLit "de", sps, strLit "multa", sps, strLit "de",
        sps, RE.grp1 numRE, tailFaturamento]

/-- Pattern `condenação\s+(?:de|ao\s+pagamento\s+de)\s+multa\s+de\s+(\d+[.,]?\d*)%...faturamento`. -/
def patPct7 : RE :=
  seqs [strLit "condenação", sps, deOrAoPagamentoDe, sps, strLit "multa", sps,
        strLit "de", sps, RE.grp1 numRE, tailFaturamento]

/-- Pattern `condenação\s+(?:de|ao\s+pagamento\s+de)\s+(\d+[.,]?\d*)%...faturamento`. -/
def patPct8 : RE :=
  seqs [strLit "condenação", sps, deOrAoPagamentoDe, sps, RE.grp1 numRE, tailFaturamento]

/-- The ordered pattern list of `extrair_percentual_multa`. -/
def padroesPercentual : List RE :=
  [patPct1, patPct2, patPct3, patPct4, patPct5, patPct6, patPct7, patPct8]

/-- Pattern `multa\s+de\s+r\$\s*(\d+[.,]?\d*(?:\.\d+)*)`. -/
def patCur1 : RE :=
  seqs [strLit "multa", sps, strLit "de", sps, strLit "r$", sps0, RE.grp1 numCurRE]

/-- Pattern `multa\s+no\s+valor\s+de\s+r\$\s*(\d+[.,]?\d*(?:\.\d+)*)`. -/
def patCur2 : RE :=
  seqs [strLit "multa", sps, strLit "no", sps, strLit "valor", sps, strLit "de",
        sps, strLit "r$", sps0, RE.grp1 numCurRE]

/-- Pattern `pena\s+pecuniária\s+de\s+r\$\s*(\d+[.,]?\d*(?:\.\d+)*)`. -/
def patCur3 : RE :=
  seqs [strLit "pena", sps, strLit "pecuniária", sps, strLit "de", sps,
        strLit "r$", sps0, RE.grp1 numCurRE]

/-- Pattern `condenação\s+(?:de|ao\s+pagamento\s+de)\s+r\$\s*(\d+[.,]?\d*(?:\.\d+)*)`. -/
def patCur4 : RE :=
  seqs [strLit "condenação", sps, deOrAoPagamentoDe, sps, strLit "r$", sps0,
        RE.grp1 numCurRE]

/-- The ordered pattern list of `extrair_valor_multa_reais`. -/
def padroesValor : List RE := [patCur1, patCur2, patCur3, patCur4]

/-- Pattern `reincid[êe]ncia`. -/
def patReinc1 : RE :=
  seqs [strLit "reincid", RE.cls (fun c => c == 'ê' || c == 'e'), strLit "ncia"]

/-- Pattern `reincidente`. -/
def patReinc2 : RE := strLit "reincidente"

/-- Pattern `boa[- ]f[ée]`. -/
def patBoaFe : RE :=
  seqs [strLit "boa", RE.cls (fun c => c == '-' || c == ' '), RE.chr 'f',
        RE.cls (fun c => c == 'é' || c == 'e')]

/-- Pattern `m[áa][- ]f[ée]`. -/
def patMaFe : RE :=
  seqs [RE.chr 'm', RE.cls (fun c => c == 'á' || c == 'a'),
        RE.cls (fun c => c == '-' || c == ' '), RE.chr 'f',
        RE.cls (fun c => c == 'é' || c == 'e')]

/-- Pattern `cooper[ao][çc][ãa]o`. -/
def patCooper : RE :=
  seqs [strLit "cooper", RE.cls (fun c => c == 'a' || c == 'o'),
        RE.cls (fun c => c == 'ç' || c == 'c'),
        RE.cls (fun c => c == 'ã' || c == 'a'), RE.chr 'o']

/-- Pattern `colabor[ao][çc][ãa]o`. -/
def patColabor : RE :=
  seqs [strLit "colabor", RE.cls (fun c => c == 'a' || c == 'o'),
        RE.cls (fun c => c == 'ç' || c == 'c'),
        RE.cls (fun c => c == 'ã' || c == 'a'), RE.chr 'o']

/-- Pattern `(alta|elevada|grave|baixa|leve|média|moderada)\s+gravidade`. -/
def patGravidade : RE :=
  seqs [RE.grp1 (RE.alt (strLit "alta") (RE.alt (strLit "elevada")
          (RE.alt (strLit "grave") (RE.alt (strLit "baixa")
            (RE.alt (strLit "leve") (RE.alt (strLit "média") (strLit "moderada"))))))),
        sps, strLit "gravidade"]

/-- Pattern `conduta\s+(?:por|durante)\s+(\d+)\s+(anos?|meses?|dias?)`. -/
def patDuracao : RE :=
  seqs [strLit "conduta", sps, RE.alt (strLit "por") (strLit "durante"), sps,
        RE.grp1 (rePlus dig), sps,
        RE.grp2 (alt3 (RE.seq (strLit "ano") (RE.opt (RE.chr 's')))
                      (RE.seq (strLit "mese") (RE.opt (RE.chr 's')))
                      (RE.seq (strLit "dia") (RE.opt (RE.chr 's'))))]

/-- Numeric conversion of one percentage capture:
`float(match.replace(',', '.'))`. -/
def parsePctCapture (m : List Char) : Option ℚ :=
  pythonFloat (m.map (fun c => if c = ',' then '.' else c))

/-- Numeric conversion of one currency capture: remove every `.` (thousands
separators), then `,` to `.`, then `float`. -/
def parseCurCapture (m : List Char) : Option ℚ :=
  pythonFloat ((m.filter (fun c => !(c == '.'))).map (fun c => if c = ',' then '.' else c))

/-- One iteration of the inner loop of `extrair_percentual_multa`: convert the
capture; on success keep the value only when `valor <= 100`; on conversion
failure `continue`. -/
def stepPct (acc : List ℚ) (m : List Char) : List ℚ :=
  match parsePctCapture m with
  | some valor => if valor ≤ 100 then acc ++ [valor] else acc
  | none => acc

/-- One iteration of the inner loop of `extrair_valor_multa_reais` (no upper
bound check). -/
def stepCur (acc : List ℚ) (m : List Char) : List ℚ :=
  match parseCurCapture m with
  | some valor => acc ++ [valor]
  | none => acc

/-- Outer loop of `extrair_percentual_multa`: for each pattern in order, fold
its `findall` matches into the shared accumulator. -/
def loopPct : List RE → List Char → List ℚ → List ℚ
  | [], _, acc => acc
  | p :: ps, t, acc => loopPct ps t ((findall1 p t).foldl stepPct acc)

/-- Outer loop of `extrair_valor_multa_reais`. -/
def loopCur : List RE → List Char → List ℚ → List ℚ
  | [], _, acc => acc
  | p :: ps, t, acc => loopCur ps t ((findall1 p t).foldl stepCur acc)

/-- `extrair_percentual_multa`: `None` on non-string input; lowercase; run the
eight patterns; return the collected list, or `None` when it is empty
(`return resultados if resultados else None`). -/
def extrair_percentual_multa (texto : PyVal) : Option (List ℚ) :=
  match texto with
  | .vStr s =>
      if (loopPct padroesPercentual (pyLower s.toList) []).isEmpty then none
      else some (loopPct padroesPercentual (pyLower s.toList) [])
  | _ => none

/-- `extrair_valor_multa_reais`: same shape with the four currency patterns. -/
def extrair_valor_multa_reais (texto : PyVal) : Option (List ℚ) :=
  match texto with
  | .vStr s =>
      if (loopCur padroesValor (pyLower s.toList) []).isEmpty then none
      else some (loopCur padroesValor (pyLower s.toList) [])
  | _ => none

/-- The dosimetry dictionary built by `extrair_elementos_dosimetria` for
string input: four booleans, the severity capture (a string or `None`), and
the conduct duration in months (int or float in Python, `ℚ` here, or `None`). -/
structure Elementos where
  reincidencia : Bool
  boa_fe : Bool
  ma_fe : Bool
  cooperacao : Bool
  gravidade : Option (List Char)
  duracao_conduta : Option ℚ
deriving DecidableEq

/-- Unit normalization of the conduct duration: `valor *= 12` when the unit
contains `ano`, `valor / 30` when it contains `dia`, unchanged otherwise. -/
def normalizarMeses (valor : Nat) (unidade : List Char) : ℚ :=
  if hasSub unidade "ano".toList then ((valor * 12 : Nat) : ℚ)
  else if hasSub unidade "dia".toList then mkRat valor 30
  else (valor : ℚ)

/-- Conduct-duration field: search the duration pattern; on a match, parse
group 1 with `int()` and normalize by group 2's unit. -/
def duracaoConduta (t : List Char) : Option ℚ :=
  match searchCaps patDuracao t with
  | some cp =>
      match cp.g1, cp.g2 with
      | some d, some u => some (normalizarMeses (digitsToNat d) u)
      | _, _ => none
  | none => none

/-- `extrair_elementos_dosimetria`: `{}` (modelled `none`) on non-string
input; otherwise the fully populated dictionary (modelled `some _`). -/
def extrair_elementos_dosimetria (texto : PyVal) : Option Elementos :=
  match texto with
  | .vStr s =>
      let t := pyLower s.toList
      some
        { reincidencia := searchB patReinc1 t || searchB patReinc2 t
          boa_fe := searchB patBoaFe t
          ma_fe := searchB patMaFe t
          cooperacao := searchB patCooper t || searchB patColabor t
          gravidade := (searchCaps patGravidade t).bind (fun cp => cp.g1)
          duracao_conduta := duracaoConduta t }
  | _ => none

/-! ## Row-level extraction orchestrator (`aplicar_extracao_ao_dataframe`) -/

/-- An input table row: the designated text column plus the row's remaining
columns, abstracted by `α`. -/
structure Row (α : Type) where
  texto : PyVal
  other : α

/-- A row of the result table: the original columns plus the columns added by
`aplicar_extracao_ao_dataframe`, initialized `none` until assigned. -/
structure RowExt (α : Type) extends Row α where
  percentuais_multa : Option (List ℚ) := none
  percentual_multa : Option ℚ := none
  valores_multa_reais : Option (List ℚ) := none
  valor_multa_reais : Option ℚ := none
  elementos_dosimetria : Option Elementos := none
  dosimetria_reincidencia : Option Bool := none
  dosimetria_boa_fe : Option Bool := none
  dosimetria_ma_fe : Option Bool := none
  dosimetria_cooperacao : Option Bool := none
  dosimetria_gravidade : Option (List Char) := none
  dosimetria_duracao_conduta : Option ℚ := none

/-- The lambda `x[0] if isinstance(x, list) and len(x) > 0 else None` applied
to the candidate-list columns (`x` is `None` or a list). -/
def primeiro (x : Option (List ℚ)) : Option ℚ :=
  match x with
  | some (v :: _) => some v
  | _ => none

/-- Python `dict.get` on the dosimetry dictionary: on the empty dict every
key is absent; on the populated dict each key holds its value (`gravidade`
and `duracao_conduta` store `None` as absence themselves). -/
def getDosBool (f : Elementos → Bool) (x : Option Elementos) : Option Bool :=
  match x with
  | some e => some (f e)
  | none => none

/-- Python `dict.get 'gravidade'`. -/
def getDosGravidade (x : Option Elementos) : Option (List Char) :=
  match x with
  | some e => e.gravidade
  | none => none

/-- Python `dict.get 'duracao_conduta'`. -/
def getDosDuracao (x : Option Elementos) : Option ℚ :=
  match x with
  | some e => e.duracao_conduta
  | none => none

/-- `df.copy()` of one row: same columns, extraction columns untouched from
their defaults. -/
def mkExt {α : Type} (r : Row α) : RowExt α := { toRow := r }

/-- Column assignment `df['percentuais_multa'] = df[coluna_texto].apply(extrair_percentual_multa)`. -/
def asgPercentuais {α : Type} (r : RowExt α) : RowExt α :=
  { r with percentuais_multa := extrair_percentual_multa r.texto }

/-- Column assignment deriving the primary percentage from the list column. -/
def asgPercentual {α : Type} (r : RowExt α) : RowExt α :=
  { r with percentual_multa := primeiro r.percentuais_multa }

/-- Column assignment `df['valores_multa_reais'] = ...`. -/
def asgValores {α : Type} (r : RowExt α) : RowExt α :=
  { r with valores_multa_reais := extrair_valor_multa_reais r.texto }

/-- Column assignment deriving the primary currency value. -/
def asgValor {α : Type} (r : RowExt α) : RowExt α :=
  { r with valor_multa_reais := primeiro r.valores_multa_reais }

/-- Column assignment `df['elementos_dosimetria'] = ...`. -/
def asgElementos {α : Type} (r : RowExt α) : RowExt α :=
  { r with elementos_dosimetria := extrair_elementos_dosimetria r.texto }

/-- Flattening loop, iteration `reincidencia`. -/
def asgDosReinc {α : Type} (r : RowExt α) : RowExt α :=
  { r with dosimetria_reincidencia := getDosBool Elementos.reincidencia r.elementos_dosimetria }

/-- Flattening loop, iteration `boa_fe`. -/
def asgDosBoaFe {α : Type} (r : RowExt α) : RowExt α :=
  { r with dosimetria_boa_fe := getDosBool Elementos.boa_fe r.elementos_dosimetria }

/-- Flattening loop, iteration `ma_fe`. -/
def asgDosMaFe {α : Type} (r : RowExt α) : RowExt α :=
  { r with dosimetria_ma_fe := getDosBool Elementos.ma_fe r.elementos_dosimetria }

/-- Flattening loop, iteration `cooperacao`. -/
def asgDosCooper {α : Type} (r : RowExt α) : RowExt α :=
  { r with dosimetria_cooperacao := getDosBool Elementos.cooperacao r.elementos_dosimetria }

/-- Flattening loop, iteration `gravidade`. -/
def asgDosGrav {α : Type} (r : RowExt α) : RowExt α :=
  { r with dosimetria_gravidade := getDosGravidade r.elementos_dosimetria }

/-- Flattening loop, iteration `duracao_conduta`. -/
def asgDosDur {α : Type} (r : RowExt α) : RowExt α :=
  { r with dosimetria_duracao_conduta := getDosDuracao r.elementos_dosimetria }

/-- The admission filter of the orchestrator:
`percentual_multa.notnull() | valor_multa_reais.notnull()`. -/
def condenadoFilter {α : Type} (r : RowExt α) : Bool :=
  r.percentual_multa.isSome || r.valor_multa_reais.isSome

/-- `aplicar_extracao_ao_dataframe`, statement by statement: copy, the five
extraction column assignments, the six flattening assignments, then the
filter to convicted rows. -/
def aplicar_extracao_ao_dataframe {α : Type} (df : List (Row α)) : List (RowExt α) :=
  let d0 := df.map mkExt
  let d1 := d0.map asgPercentuais
  let d2 := d1.map asgPercentual
  let d3 := d2.map asgValores
  let d4 := d3.map asgValor
  let d5 := d4.map asgElementos
  let d6 := d5.map asgDosReinc
  let d7 := d6.map asgDosBoaFe
  let d8 := d7.map asgDosMaFe
  let d9 := d8.map asgDosCooper
  let d10 := d9.map asgDosGrav
  let d11 := d10.map asgDosDur
  d11.filter condenadoFilter

/-- The full per-row extraction: value of one output row as a function of one
input row. -/
def rowFull {α : Type} (r : Row α) : RowExt α :=
  asgDosDur (asgDosGrav (asgDosCooper (asgDosMaFe (asgDosBoaFe (asgDosReinc
    (asgElementos (asgValor (asgValores (asgPercentual (asgPercentuais (mkExt r)))))))))))

/-! ### Heap model of the orchestrator

To state that `aplicar_extracao_ao_dataframe` does not mutate its argument,
the same statement sequence is replayed against an explicit heap: DataFrame
objects live in a store of values, names are references (indices), `df.copy()`
allocates a fresh object, every column assignment mutates the `df_resultado`
object in place, and the final filter allocates the result object. -/

/-- A heap of DataFrame objects. -/
abbrev DFHeap (α : Type) : Type := List (List (RowExt α))

/-- In-place column assignment on the object at `ref`. -/
def heapUpd {α : Type} (h : DFHeap α) (ref : Nat) (f : RowExt α → RowExt α) : DFHeap α :=
  h.set ref ((h.getD ref []).map f)

/-- `aplicar_extracao_ao_dataframe` on the heap: `df` is the object at `dfRef`;
returns the final heap and the reference of the returned DataFrame. -/
def aplicar_extracao_heap {α : Type} (h : DFHeap α) (dfRef : Nat) : DFHeap α × Nat :=
  let rRef := h.length
  let h1 := h ++ [h.getD dfRef []]
  let h2 := heapUpd h1 rRef asgPercentuais
  let h3 := heapUpd h2 rRef asgPercentual
  let h4 := heapUpd h3 rRef asgValores
  let h5 := heapUpd h4 rRef asgValor
  let h6 := heapUpd h5 rRef asgElementos
  let h7 := heapUpd h6 rRef asgDosReinc
  let h8 := heapUpd h7 rRef asgDosBoaFe
  let h9 := heapUpd h8 rRef asgDosMaFe
  let h10 := heapUpd h9 rRef asgDosCooper
  let h11 := heapUpd h10 rRef asgDosGrav
  let h12 := heapUpd h11 rRef asgDosDur
  let condenados := (h12.getD rRef []).filter condenadoFilter
  (h12 ++ [condenados], h12.length)

/-! ## Inference module (`inference.py`) -/

/-- Python `str()` as used on the items of the decision list; list items in
this dataset are strings, numbers or `None`. -/
def pyStr : PyVal → String
  | .vStr s => s
  | .vInt n => toString n
  | .vFloat q => toString q
  | .vNone => "None"
  | .vList _ => "[...]"

/-- The target lambda of `preparar_dados_para_modelo`:
`1 if isinstance(x, list) and any('condenação' in str(item).lower() for item in x) else 0`. -/
def condenacaoLabel (x : PyVal) : Nat :=
  match x with
  | .vList l =>
      if l.any (fun item => hasSub (pyLower (pyStr item).toList) "condenação".toList)
      then 1 else 0
  | _ => 0

/-- A table for the inference module: the list of column names and the rows
as association lists from column name to cell value. -/
structure InfDF where
  cols : List String
  rows : List (List (String × PyVal))

/-- Cell lookup. -/
def getCell (row : List (String × PyVal)) (c : String) : PyVal :=
  match row.find? (fun p => p.1 == c) with
  | some p => p.2
  | none => .vNone

/-- Candidate numeric feature columns of `preparar_dados_para_modelo`. -/
def featuresNumericas : List String := ["ano_documento", "dosimetria_duracao_conduta"]

/-- Candidate categorical feature columns. -/
def featuresCategoricas : List String := ["descricao_tipo_documento", "dosimetria_gravidade"]

/-- Candidate binary feature columns. -/
def featuresBinarias : List String :=
  ["dosimetria_reincidencia", "dosimetria_boa_fe", "dosimetria_ma_fe", "dosimetria_cooperacao"]

/-- `astype(float)` on a binary-feature cell (`True`/`False`/`None` become
`1.0`/`0.0`/`NaN`; `NaN` is modelled by `vNone`). -/
def cellAsFloat : PyVal → PyVal
  | .vInt n => .vFloat n
  | .vFloat q => .vFloat q
  | v => v

/-- `preparar_dados_para_modelo`: `(None, None)` without a decision column or
without any available feature column; otherwise the feature table `X` (the
selected columns per row, binary ones cast to float) and the target `y`.
The mask `~condenacao.isna()` keeps every row because the target lambda
always yields 0 or 1, never `NaN`. -/
def preparar_dados_para_modelo (df : InfDF) :
    Option (List (List (String × PyVal)) × List Nat) :=
  if df.cols.contains "decisao_tribunal" then
    let fn := featuresNumericas.filter (fun c => df.cols.contains c)
    let fc := featuresCategoricas.filter (fun c => df.cols.contains c)
    let fb := featuresBinarias.filter (fun c => df.cols.contains c)
    let todas := fn ++ fc ++ fb
    if todas.isEmpty then none
    else
      some
        (df.rows.map (fun r =>
           todas.map (fun c =>
             (c, if fb.contains c then cellAsFloat (getCell r c) else getCell r c))),
         df.rows.map (fun r => condenacaoLabel (getCell r "decisao_tribunal")))
  else none

/-- Result dictionary of `treinar_modelo_inferencial`; the success payload
(fitted sklearn pipeline and its metrics) is external to the extraction core
and not modelled beyond its status. -/
inductive TrainResult where
  | erro (mensagem : String)
  | sucesso
deriving DecidableEq

/-- `treinar_modelo_inferencial`: the structured insufficient-data result when
preparation yields no data or fewer than 10 rows; otherwise the training
branch runs and reports success. -/
def treinar_modelo_inferencial (df : InfDF) : TrainResult :=
  match preparar_dados_para_modelo df with
  | none => .erro "Dados insuficientes para treinar o modelo"
  | some (X, _) =>
      if X.length < 10 then .erro "Dados insuficientes para treinar o modelo"
      else .sucesso

/-! ## Helper lemmas -/

/-- Success characterization for the backtracking choice. -/
theorem obr_eq_some {β : Type} (x y : Option β) (b : β) :
    obr x y = some b ↔ x = some b ∨ (x = none ∧ y = some b) := by
  cases x <;> simp [obr]

/-- Normal form of the orchestrator: one map of the per-row extraction
followed by the admission filter. -/
theorem aplicar_eq {α : Type} (df : List (Row α)) :
    aplicar_extracao_ao_dataframe df = (df.map rowFull).filter condenadoFilter := by
  unfold aplicar_extracao_ao_dataframe
  simp only [List.map_map]
  rfl

/-- The primary-percentage column of an output row is the head of the
percentage-candidate list of the row's text. -/
theorem rowFull_percentual {α : Type} (r : Row α) :
    (rowFull r).percentual_multa = primeiro (extrair_percentual_multa r.texto) := rfl

/-- The primary-currency column of an output row is the head of the
currency-candidate list of the row's text. -/
theorem rowFull_valor {α : Type} (r : Row α) :
    (rowFull r).valor_multa_reais = primeiro (extrair_valor_multa_reais r.texto) := rfl

/-- Non-string input yields `None` from the percentage extractor. -/
theorem extrair_percentual_nonstr (v : PyVal) (h : v.isStr = false) :
    extrair_percentual_multa v = none := by
  cases v <;> first | rfl | simp [PyVal.isStr] at h

/-- Non-string input yields `None` from the currency extractor. -/
theorem extrair_valor_nonstr (v : PyVal) (h : v.isStr = false) :
    extrair_valor_multa_reais v = none := by
  cases v <;> first | rfl | simp [PyVal.isStr] at h

/-- Non-string input yields the empty dictionary from the dosimetry
extractor. -/
theorem extrair_elementos_nonstr (v : PyVal) (h : v.isStr = false) :
    extrair_elementos_dosimetria v = none := by
  cases v <;> first | rfl | simp [PyVal.isStr] at h

/-- The percentage extractor never returns an empty list. -/
theorem extrair_percentual_ne_nil (s : String) :
    extrair_percentual_multa (.vStr s) ≠ some [] := by
  intro hc
  simp only [extrair_percentual_multa] at hc
  by_cases he : (loopPct padroesPercentual (pyLower s.toList) []).isEmpty
  · rw [if_pos he] at hc
    exact Option.noConfusion hc
  · rw [if_neg he] at hc
    rw [Option.some.injEq] at hc
    rw [hc] at he
    exact he rfl

/-- The currency extractor never returns an empty list. -/
theorem extrair_valor_ne_nil (s : String) :
    extrair_valor_multa_reais (.vStr s) ≠ some [] := by
  intro hc
  simp only [extrair_valor_multa_reais] at hc
  by_cases he : (loopCur padroesValor (pyLower s.toList) []).isEmpty
  · rw [if_pos he] at hc
    exact Option.noConfusion hc
  · rw [if_neg he] at hc
    rw [Option.some.injEq] at hc
    rw [hc] at he
    exact he rfl

/-! ## Claims -/

/-- C1: a row appears in the output of `aplicar_extracao_ao_dataframe` if and
only if it is the extraction of some input row whose primary percentage
(`percentual_multa`) or primary currency value (`valor_multa_reais`) is
present; every extracted row with both absent is dropped by the admission
filter and every one with either present is retained. -/
theorem C1_orchestrator_admission {α : Type} (df : List (Row α)) (r : RowExt α) :
    r ∈ aplicar_extracao_ao_dataframe df ↔
      ((∃ row ∈ df, rowFull row = r) ∧
        (r.percentual_multa.isSome = true ∨ r.valor_multa_reais.isSome = true)) := by
  rw [aplicar_eq, List.mem_filter, List.mem_map]
  simp [condenadoFilter]

/-- C10: a row whose text-column value is not a string yields `None` from both
candidate-list extractors, hence both primary values are absent, and inserting
such a row anywhere into the input table leaves the output table unchanged —
the row never appears in the output, regardless of its other columns. -/
theorem C10_nonstring_row_dropped {α : Type} (df1 df2 : List (Row α)) (row : Row α)
    (h : row.texto.isStr = false) :
    extrair_percentual_multa row.texto = none ∧
    extrair_valor_multa_reais row.texto = none ∧
    (rowFull row).percentual_multa = none ∧
    (rowFull row).valor_multa_reais = none ∧
    aplicar_extracao_ao_dataframe (df1 ++ row :: df2) =
      aplicar_extracao_ao_dataframe (df1 ++ df2) := by
  have hp := extrair_percentual_nonstr row.texto h
  have hv := extrair_valor_nonstr row.texto h
  have hpm : (rowFull row).percentual_multa = none := by
    rw [rowFull_percentual, hp]; rfl
  have hvm : (rowFull row).valor_multa_reais = none := by
    rw [rowFull_valor, hv]; rfl
  refine ⟨hp, hv, hpm, hvm, ?_⟩
  rw [aplicar_eq, aplicar_eq, List.map_append, List.map_append, List.map_cons,
    List.filter_append, List.filter_append]
  congr 1
  rw [List.filter_cons]
  simp [condenadoFilter, hpm, hvm]

/-- C10 witness: the non-string row `None` is dropped from a concrete
singleton table. -/
theorem C10_witness :
    extrair_percentual_multa PyVal.vNone = none ∧
    extrair_valor_multa_reais PyVal.vNone = none ∧
    (rowFull { texto := PyVal.vNone, other := () }).percentual_multa = none ∧
    (rowFull { texto := PyVal.vNone, other := () }).valor_multa_reais = none ∧
    aplicar_extracao_ao_dataframe ([] ++ { texto := PyVal.vNone, other := () } :: []) =
      aplicar_extracao_ao_dataframe ([] ++ ([] : List (Row Unit))) :=
  C10_nonstring_row_dropped [] [] { texto := PyVal.vNone, other := () } rfl

/-- C2 counterexample: on the non-string input `None`,
`extrair_elementos_dosimetria` returns the empty dictionary `{}`, not the
populated all-default record with its four booleans set to `False`. -/
theorem C2_counterexample :
    extrair_elementos_dosimetria PyVal.vNone ≠
      some { reincidencia := false, boa_fe := false, ma_fe := false,
             cooperacao := false, gravidade := none, duracao_conduta := none } := by
  simp [extrair_elementos_dosimetria]

/-- C2 (amended): for every non-string input the percentage and currency
extractors return absent, and they never return an empty list on string input;
`extrair_elementos_dosimetria` returns the empty record (empty dict), from
which every flattened dosimetry lookup is absent — the four booleans are
absent (not false), severity absent, conduct duration absent. -/
theorem C2_nonstring_defaults (v : PyVal) (s : String) (h : v.isStr = false) :
    extrair_percentual_multa v = none ∧
    extrair_valor_multa_reais v = none ∧
    extrair_elementos_dosimetria v = none ∧
    getDosBool Elementos.reincidencia (extrair_elementos_dosimetria v) = none ∧
    getDosBool Elementos.boa_fe (extrair_elementos_dosimetria v) = none ∧
    getDosBool Elementos.ma_fe (extrair_elementos_dosimetria v) = none ∧
    getDosBool Elementos.cooperacao (extrair_elementos_dosimetria v) = none ∧
    getDosGravidade (extrair_elementos_dosimetria v) = none ∧
    getDosDuracao (extrair_elementos_dosimetria v) = none ∧
    extrair_percentual_multa (.vStr s) ≠ some [] ∧
    extrair_valor_multa_reais (.vStr s) ≠ some [] := by
  have he := extrair_elementos_nonstr v h
  refine ⟨extrair_percentual_nonstr v h, extrair_valor_nonstr v h, he,
    ?_, ?_, ?_, ?_, ?_, ?_,
    extrair_percentual_ne_nil s, extrair_valor_ne_nil s⟩ <;>
    rw [he] <;> rfl

/-- C2 witness: the amended statement at the concrete inputs `None` and
`"multa"`. -/
theorem C2_witness :
    extrair_percentual_multa PyVal.vNone = none ∧
    extrair_valor_multa_reais PyVal.vNone = none ∧
    extrair_elementos_dosimetria PyVal.vNone = none ∧
    getDosBool Elementos.reincidencia (extrair_elementos_dosimetria PyVal.vNone) = none ∧
    getDosBool Elementos.boa_fe (extrair_elementos_dosimetria PyVal.vNone) = none ∧
    getDosBool Elementos.ma_fe (extrair_elementos_dosimetria PyVal.vNone) = none ∧
    getDosBool Elementos.cooperacao (extrair_elementos_dosimetria PyVal.vNone) = none ∧
    getDosGravidade (extrair_elementos_dosimetria PyVal.vNone) = none ∧
    getDosDuracao (extrair_elementos_dosimetria PyVal.vNone) = none ∧
    extrair_percentual_multa (.vStr "multa") ≠ some [] ∧
    extrair_valor_multa_reais (.vStr "multa") ≠ some [] :=
  C2_nonstring_defaults PyVal.vNone "multa" rfl

/-- C3: currency numeral parsing strips the period thousands separators and
converts the decimal comma to a point: the captured numeral "1.234,56" parses
to 1234.56 (= 30864/25), and the row text
"multa no valor de R$ 1.500.000,00" yields the candidate list [1500000] and
primary currency value 1500000.00. -/
theorem C3_currency_parsing :
    parseCurCapture "1.234,56".toList = some (mkRat 30864 25) ∧
    extrair_valor_multa_reais (.vStr "multa no valor de R$ 1.500.000,00") =
      some [1500000] ∧
    (rowFull { texto := .vStr "multa no valor de R$ 1.500.000,00",
               other := () }).valor_multa_reais = some 1500000 := by
  refine ⟨by decide, by decide, ?_⟩
  rw [rowFull_valor]
  decide

/-- Input row of the end-to-end scenario of claim C4. -/
def linhaC4 : Row Unit :=
  { texto := .vStr "a empresa foi condenada ao pagamento de multa de 15,5% de seu faturamento, havendo reincidência e boa-fé"
    other := () }

set_option maxRecDepth 100000 in
/-- C4: on the end-to-end scenario row, the pipeline yields primary
percentage 15.5 (= 31/2, decimal comma parsed as point),
`dosimetria_reincidencia = True`, `dosimetria_boa_fe = True`,
`dosimetria_ma_fe = False`, and the orchestrator retains the row. -/
theorem C4_end_to_end :
    (rowFull linhaC4).percentual_multa = some (mkRat 31 2) ∧
    (rowFull linhaC4).dosimetria_reincidencia = some true ∧
    (rowFull linhaC4).dosimetria_boa_fe = some true ∧
    (rowFull linhaC4).dosimetria_ma_fe = some false ∧
    aplicar_extracao_ao_dataframe [linhaC4] = [rowFull linhaC4] := by
  refine ⟨by decide, by decide, by decide, by decide, ?_⟩
  rw [aplicar_eq]
  simp only [List.map_cons, List.map_nil]
  rw [List.filter_cons]
  rw [if_pos (by decide)]
  rfl

/-- C6: conduct duration is normalized to months — a numeral with a year unit
is multiplied by 12, a month unit is unchanged, a day unit is divided by 30
(exactly, in `ℚ`); in a matching "conduta por/durante" context, "12 meses"
yields 12, "1 ano" yields 12, "30 dias" yields 1; absent when there is no
match. -/
theorem C6_duration_normalization :
    (∀ n : Nat,
      normalizarMeses n "ano".toList = ((n * 12 : Nat) : ℚ) ∧
      normalizarMeses n "anos".toList = ((n * 12 : Nat) : ℚ) ∧
      normalizarMeses n "mese".toList = (n : ℚ) ∧
      normalizarMeses n "meses".toList = (n : ℚ) ∧
      normalizarMeses n "dia".toList = mkRat n 30 ∧
      normalizarMeses n "dias".toList = mkRat n 30) ∧
    getDosDuracao (extrair_elementos_dosimetria (.vStr "conduta por 12 meses")) = some 12 ∧
    getDosDuracao (extrair_elementos_dosimetria (.vStr "conduta durante 1 ano")) = some 12 ∧
    getDosDuracao (extrair_elementos_dosimetria (.vStr "conduta por 30 dias")) = some 1 ∧
    getDosDuracao (extrair_elementos_dosimetria (.vStr "sem qualquer conduta relevante")) = none := by
  refine ⟨fun n => ?_, by decide, by decide, by decide, by decide⟩
  refine ⟨?_, ?_, ?_, ?_, ?_, ?_⟩ <;> unfold normalizarMeses
  · rw [if_pos (by decide)]
  · rw [if_pos (by decide)]
  · rw [if_neg (by decide), if_neg (by decide)]
  · rw [if_neg (by decide), if_neg (by decide)]
  · rw [if_neg (by decide), if_pos (by decide)]
  · rw [if_neg (by decide), if_pos (by decide)]

/-- Appending to the accumulator commutes with the inner percentage loop:
the loop only ever appends to its right end. -/
theorem foldl_stepPct_acc (ms : List (List Char)) (acc : List ℚ) :
    ms.foldl stepPct acc = acc ++ ms.foldl stepPct [] := by
  induction ms generalizing acc with
  | nil => simp
  | cons m t ih =>
      have hstep : ∀ a, stepPct a m = a ++ stepPct [] m := by
        intro a
        rcases hp : parsePctCapture m with _ | v
        · simp [stepPct, hp]
        · by_cases hv : v ≤ 100 <;> simp [stepPct, hp, hv]
      rw [List.foldl_cons, List.foldl_cons, ih (stepPct acc m), ih (stepPct [] m),
        hstep acc, List.append_assoc]

/-- The outer loop of `extrair_percentual_multa` is the concatenation, in
pattern order, of each pattern's own contribution. -/
theorem loopPct_join (ps : List RE) (t : List Char) (acc : List ℚ) :
    loopPct ps t acc =
      acc ++ (ps.map (fun p => (findall1 p t).foldl stepPct [])).flatten := by
  induction ps generalizing acc with
  | nil => simp [loopPct]
  | cons p ps ih =>
      rw [loopPct, ih, foldl_stepPct_acc, List.map_cons, List.flatten_cons,
        List.append_assoc]

set_option maxRecDepth 100000 in
/-- C7: every pattern runs against the full text and contributes its own
matches to the result in pattern-application order (the collected list is the
join of the per-pattern contributions); on the scenario text, matched by both
the first and the fifth pattern, the value 15.5 appears once per matching
pattern — duplicates across patterns are not deduplicated. -/
theorem C7_pattern_independence :
    (∀ (t : List Char) (acc : List ℚ),
        loopPct padroesPercentual t acc =
          acc ++ (padroesPercentual.map (fun p => (findall1 p t).foldl stepPct [])).flatten) ∧
    extrair_percentual_multa
      (.vStr "a empresa foi condenada ao pagamento de multa de 15,5% de seu faturamento, havendo reincidência e boa-fé") =
      some [mkRat 31 2, mkRat 31 2] ∧
    (findall1 patPct1 (pyLower "a empresa foi condenada ao pagamento de multa de 15,5% de seu faturamento, havendo reincidência e boa-fé".toList)).foldl stepPct [] =
      [mkRat 31 2] ∧
    (findall1 patPct5 (pyLower "a empresa foi condenada ao pagamento de multa de 15,5% de seu faturamento, havendo reincidência e boa-fé".toList)).foldl stepPct [] =
      [mkRat 31 2] :=
  ⟨fun t acc => loopPct_join padroesPercentual t acc, by decide, by decide, by decide⟩

/-- C9: when no features or label can be built, or fewer than the minimum of
10 rows remain, `treinar_modelo_inferencial` returns the structured result
with status `erro` and the insufficient-data message instead of raising. -/
theorem C9_insufficient_data (df : InfDF)
    (h : ∀ X y, preparar_dados_para_modelo df = some (X, y) → X.length < 10) :
    treinar_modelo_inferencial df = .erro "Dados insuficientes para treinar o modelo" := by
  unfold treinar_modelo_inferencial
  rcases hp : preparar_dados_para_modelo df with _ | ⟨X, y⟩
  · rfl
  · show (if X.length < 10 then TrainResult.erro "Dados insuficientes para treinar o modelo"
          else TrainResult.sucesso) = TrainResult.erro "Dados insuficientes para treinar o modelo"
    rw [if_pos (h X y hp)]

/-- C9 witness: a table with the decision column and one feature column but
no rows produces the insufficient-data result. -/
theorem C9_witness :
    treinar_modelo_inferencial { cols := ["decisao_tribunal", "ano_documento"], rows := [] } =
      .erro "Dados insuficientes para treinar o modelo" :=
  C9_insufficient_data _ (by
    intro X y hxy
    rw [show preparar_dados_para_modelo
          { cols := ["decisao_tribunal", "ano_documento"], rows := [] } =
          some ([], []) from rfl] at hxy
    obtain ⟨h1, h2⟩ := Prod.mk.injEq .. ▸ Option.some.inj hxy
    rw [← h1]
    decide)

/-- Indexing left of an append. -/
theorem getD_append_lt {γ : Type} (l l2 : List γ) (i : Nat) (d : γ) (h : i < l.length) :
    (l ++ l2).getD i d = l.getD i d := by
  induction l generalizing i with
  | nil => simp at h
  | cons a t ih =>
      cases i with
      | zero => rfl
      | succ j => exact ih j (Nat.lt_of_succ_lt_succ h)

/-- Indexing just past a list reads the appended object. -/
theorem getD_append_self {γ : Type} (l l2 : List γ) (d : γ) :
    (l ++ l2).getD l.length d = l2.getD 0 d := by
  induction l with
  | nil => rfl
  | cons a t ih => exact ih

/-- A store update at one reference leaves every other reference unchanged. -/
theorem getD_set_ne {γ : Type} (l : List γ) (j i : Nat) (x : γ) (d : γ) (h : i ≠ j) :
    (l.set j x).getD i d = l.getD i d := by
  induction l generalizing i j with
  | nil => rfl
  | cons a t ih =>
      cases j with
      | zero =>
          cases i with
          | zero => exact absurd rfl h
          | succ i2 => rfl
      | succ j2 =>
          cases i with
          | zero => rfl
          | succ i2 => exact ih j2 i2 (fun hc => h (by rw [hc]))

/-- Reading back a store update. -/
theorem getD_set_self {γ : Type} (l : List γ) (j : Nat) (x : γ) (d : γ) (h : j < l.length) :
    (l.set j x).getD j d = x := by
  induction l generalizing j with
  | nil => simp at h
  | cons a t ih =>
      cases j with
      | zero => rfl
      | succ j2 => exact ih j2 (Nat.lt_of_succ_lt_succ h)

/-- In-place column assignment touches no other DataFrame object. -/
theorem heapUpd_getD_ne {α : Type} (h : DFHeap α) (ref i : Nat)
    (f : RowExt α → RowExt α) (hne : i ≠ ref) :
    (heapUpd h ref f).getD i [] = h.getD i [] :=
  getD_set_ne h ref i _ [] hne

/-- In-place column assignment maps the object it targets. -/
theorem heapUpd_getD_self {α : Type} (h : DFHeap α) (ref : Nat)
    (f : RowExt α → RowExt α) (href : ref < h.length) :
    (heapUpd h ref f).getD ref [] = (h.getD ref []).map f :=
  getD_set_self h ref _ [] href

/-- In-place column assignment preserves the number of live objects. -/
theorem heapUpd_length {α : Type} (h : DFHeap α) (ref : Nat)
    (f : RowExt α → RowExt α) : (heapUpd h ref f).length = h.length := by
  simp [heapUpd]

/-- C8: `aplicar_extracao_ao_dataframe` does not mutate its input table.
Replaying its statements on an explicit heap of DataFrame objects, the input
object is unchanged after the call (the copy, not the input, receives every
column assignment), the returned reference is a fresh object distinct from
the input's, and that fresh object holds exactly the pure per-row extraction
and filter of the input's rows. -/
theorem C8_no_mutation {α : Type} (h : DFHeap α) (dfRef : Nat) (hlt : dfRef < h.length) :
    (aplicar_extracao_heap h dfRef).1.getD dfRef [] = h.getD dfRef [] ∧
    (aplicar_extracao_heap h dfRef).2 ≠ dfRef ∧
    (aplicar_extracao_heap h dfRef).1.getD (aplicar_extracao_heap h dfRef).2 [] =
      aplicar_extracao_ao_dataframe ((h.getD dfRef []).map (fun r => r.toRow)) := by
  have hne : dfRef ≠ h.length := Nat.ne_of_lt hlt
  have hlen1 : (h ++ [h.getD dfRef []]).length = h.length + 1 := by simp
  have heq1 : (aplicar_extracao_heap h dfRef).1 =
      heapUpd (heapUpd (heapUpd (heapUpd (heapUpd (heapUpd (heapUpd (heapUpd (heapUpd
        (heapUpd (heapUpd (h ++ [h.getD dfRef []]) h.length asgPercentuais) h.length
        asgPercentual) h.length asgValores) h.length asgValor) h.length asgElementos)
        h.length asgDosReinc) h.length asgDosBoaFe) h.length asgDosMaFe) h.length
        asgDosCooper) h.length asgDosGrav) h.length asgDosDur ++
      [((heapUpd (heapUpd (heapUpd (heapUpd (heapUpd (heapUpd (heapUpd (heapUpd (heapUpd
        (heapUpd (heapUpd (h ++ [h.getD dfRef []]) h.length asgPercentuais) h.length
        asgPercentual) h.length asgValores) h.length asgValor) h.length asgElementos)
        h.length asgDosReinc) h.length asgDosBoaFe) h.length asgDosMaFe) h.length
        asgDosCooper) h.length asgDosGrav) h.length asgDosDur).getD h.length []).filter
        condenadoFilter] := rfl
  have heq2 : (aplicar_extracao_heap h dfRef).2 =
      (heapUpd (heapUpd (heapUpd (heapUpd (heapUpd (heapUpd (heapUpd (heapUpd (heapUpd
        (heapUpd (heapUpd (h ++ [h.getD dfRef []]) h.length asgPercentuais) h.length
        asgPercentual) h.length asgValores) h.length asgValor) h.length asgElementos)
        h.length asgDosReinc) h.length asgDosBoaFe) h.length asgDosMaFe) h.length
        asgDosCooper) h.length asgDosGrav) h.length asgDosDur).length := rfl
  refine ⟨?_, ?_, ?_⟩
  · rw [heq1, getD_append_lt]
    · rw [heapUpd_getD_ne _ _ _ _ hne, heapUpd_getD_ne _ _ _ _ hne,
        heapUpd_getD_ne _ _ _ _ hne, heapUpd_getD_ne _ _ _ _ hne,
        heapUpd_getD_ne _ _ _ _ hne, heapUpd_getD_ne _ _ _ _ hne,
        heapUpd_getD_ne _ _ _ _ hne, heapUpd_getD_ne _ _ _ _ hne,
        heapUpd_getD_ne _ _ _ _ hne, heapUpd_getD_ne _ _ _ _ hne,
        heapUpd_getD_ne _ _ _ _ hne,
        getD_append_lt _ _ _ _ hlt]
    · simp only [heapUpd_length, hlen1]
      exact Nat.lt_succ_of_lt hlt
  · rw [heq2]
    simp only [heapUpd_length, hlen1]
    intro hc
    omega
  · rw [heq1, heq2, getD_append_self]
    show ((heapUpd _ h.length asgDosDur).getD h.length []).filter condenadoFilter = _
    rw [heapUpd_getD_self _ _ _ (by simp only [heapUpd_length, hlen1]; exact Nat.lt_succ_self _),
      heapUpd_getD_self _ _ _ (by simp only [heapUpd_length, hlen1]; exact Nat.lt_succ_self _),
      heapUpd_getD_self _ _ _ (by simp only [heapUpd_length, hlen1]; exact Nat.lt_succ_self _),
      heapUpd_getD_self _ _ _ (by simp only [heapUpd_length, hlen1]; exact Nat.lt_succ_self _),
      heapUpd_getD_self _ _ _ (by simp only [heapUpd_length, hlen1]; exact Nat.lt_succ_self _),
      heapUpd_getD_self _ _ _ (by simp only [heapUpd_length, hlen1]; exact Nat.lt_succ_self _),
      heapUpd_getD_self _ _ _ (by simp only [heapUpd_length, hlen1]; exact Nat.lt_succ_self _),
      heapUpd_getD_self _ _ _ (by simp only [heapUpd_length, hlen1]; exact Nat.lt_succ_self _),
      heapUpd_getD_self _ _ _ (by simp only [heapUpd_length, hlen1]; exact Nat.lt_succ_self _),
      heapUpd_getD_self _ _ _ (by simp only [heapUpd_length, hlen1]; exact Nat.lt_succ_self _),
      heapUpd_getD_self _ _ _ (by simp only [hlen1]; exact Nat.lt_succ_self _),
      getD_append_self]
    show List.filter condenadoFilter
        (List.map asgDosDur (List.map asgDosGrav (List.map asgDosCooper (List.map asgDosMaFe
          (List.map asgDosBoaFe (List.map asgDosReinc (List.map asgElementos (List.map asgValor
            (List.map asgValores (List.map asgPercentual (List.map asgPercentuais
              (List.getD h dfRef [])))))))))))) = _
    rw [aplicar_eq]
    simp only [List.map_map]
    congr 1

/-- C8 witness: the input object of a concrete one-object heap is unchanged
and the result is a fresh object. -/
theorem C8_witness :
    (aplicar_extracao_heap ([[]] : DFHeap Unit) 0).1.getD 0 [] =
      ([[]] : DFHeap Unit).getD 0 [] ∧
    (aplicar_extracao_heap ([[]] : DFHeap Unit) 0).2 ≠ 0 ∧
    (aplicar_extracao_heap ([[]] : DFHeap Unit) 0).1.getD
        (aplicar_extracao_heap ([[]] : DFHeap Unit) 0).2 [] =
      aplicar_extracao_ao_dataframe
        ((([[]] : DFHeap Unit).getD 0 []).map (fun r => r.toRow)) :=
  C8_no_mutation [[]] 0 (by decide)

/-! ## Capture-shape invariant of the matcher (for C5) -/

/-- Every character accepted anywhere in the regex satisfies `P`. -/
def REOnly (P : Char → Bool) : RE → Prop
  | .chr c => P c = true
  | .cls f => ∀ c, f c = true → P c = true
  | .eps => True
  | .seq a b => REOnly P a ∧ REOnly P b
  | .alt a b => REOnly P a ∧ REOnly P b
  | .opt a => REOnly P a
  | .star a => REOnly P a
  | .grp1 a => REOnly P a
  | .grp2 a => REOnly P a

/-- Every character accepted inside a capture group of the regex satisfies
`P` (the rest of the regex is unconstrained). -/
def GroupsOnly (P : Char → Bool) : RE → Prop
  | .chr _ => True
  | .cls _ => True
  | .eps => True
  | .seq a b => GroupsOnly P a ∧ GroupsOnly P b
  | .alt a b => GroupsOnly P a ∧ GroupsOnly P b
  | .opt a => GroupsOnly P a
  | .star a => GroupsOnly P a
  | .grp1 a => REOnly P a
  | .grp2 a => REOnly P a

/-- Both stored captures consist of `P`-characters only. -/
def CapsOK (P : Char → Bool) (cp : Caps) : Prop :=
  (∀ l, cp.g1 = some l → l.all P = true) ∧ (∀ l, cp.g2 = some l → l.all P = true)

/-- The empty capture state is well-formed. -/
theorem capsOK_default (P : Char → Bool) : CapsOK P {} :=
  ⟨fun _ hl => Option.noConfusion hl, fun _ hl => Option.noConfusion hl⟩

/-- Consumed-prefix invariant: when the whole regex accepts only
`P`-characters, any successful run of the matcher reaches its continuation on
a suffix whose consumed prefix is all-`P`, with a capture state at least as
well-formed as the input one. -/
theorem mtch_consumed {β : Type} (P : Char → Bool) :
    ∀ (fuel : Nat) (r : RE) (s : List Char) (cp : Caps)
      (k : List Char → Caps → Option β) (b : β),
      REOnly P r → mtch fuel r s cp k = some b →
      ∃ pre s1 cp1, s = pre ++ s1 ∧ pre.all P = true ∧
        (CapsOK P cp → CapsOK P cp1) ∧ k s1 cp1 = some b := by
  intro fuel
  induction fuel with
  | zero =>
      intro r s cp k b hro h
      simp [mtch] at h
  | succ f ih =>
      intro r s cp k b hro h
      cases r with
      | chr c =>
          cases s with
          | nil => simp [mtch] at h
          | cons a rest =>
              have hpc : P c = true := hro
              simp only [mtch] at h
              by_cases hac : a = c
              · rw [if_pos hac] at h
                exact ⟨[a], rest, cp, rfl, by simp [hac, hpc], fun x => x, h⟩
              · rw [if_neg hac] at h
                exact Option.noConfusion h
      | cls p =>
          cases s with
          | nil => simp [mtch] at h
          | cons a rest =>
              simp only [mtch] at h
              by_cases hac : p a = true
              · rw [if_pos hac] at h
                exact ⟨[a], rest, cp, rfl, by simp [hro a hac], fun x => x, h⟩
              · rw [if_neg hac] at h
                exact Option.noConfusion h
      | eps =>
          simp only [mtch] at h
          exact ⟨[], s, cp, rfl, rfl, fun x => x, h⟩
      | seq a b2 =>
          have hro2 : REOnly P a ∧ REOnly P b2 := hro
          simp only [mtch] at h
          obtain ⟨pre1, s1, cp1, hs1, hall1, himp1, hk1⟩ := ih a s cp _ b hro2.1 h
          obtain ⟨pre2, s2, cp2, hs2, hall2, himp2, hk2⟩ := ih b2 s1 cp1 k b hro2.2 hk1
          exact ⟨pre1 ++ pre2, s2, cp2, by rw [hs1, hs2, List.append_assoc],
            by rw [List.all_append, hall1, hall2]; rfl,
            fun x => himp2 (himp1 x), hk2⟩
      | alt a b2 =>
          have hro2 : REOnly P a ∧ REOnly P b2 := hro
          simp only [mtch] at h
          rcases (obr_eq_some _ _ _).mp h with h1 | ⟨_, h2⟩
          · exact ih a s cp k b hro2.1 h1
          · exact ih b2 s cp k b hro2.2 h2
      | opt a =>
          have hra : REOnly P a := hro
          simp only [mtch] at h
          rcases (obr_eq_some _ _ _).mp h with h1 | ⟨_, h2⟩
          · exact ih a s cp k b hra h1
          · exact ⟨[], s, cp, rfl, rfl, fun x => x, h2⟩
      | star a =>
          have hra : REOnly P a := hro
          simp only [mtch] at h
          rcases (obr_eq_some _ _ _).mp h with h1 | ⟨_, h2⟩
          · obtain ⟨pre1, s1, cp1, hs1, hall1, himp1, hk1⟩ := ih a s cp _ b hra h1
            by_cases hlen : s1.length < s.length
            · rw [if_pos hlen] at hk1
              obtain ⟨pre2, s2, cp2, hs2, hall2, himp2, hk2⟩ :=
                ih (RE.star a) s1 cp1 k b hro hk1
              exact ⟨pre1 ++ pre2, s2, cp2, by rw [hs1, hs2, List.append_assoc],
                by rw [List.all_append, hall1, hall2]; rfl,
                fun x => himp2 (himp1 x), hk2⟩
            · rw [if_neg hlen] at hk1
              exact Option.noConfusion hk1
          · exact ⟨[], s, cp, rfl, rfl, fun x => x, h2⟩
      | grp1 a =>
          have hra : REOnly P a := hro
          simp only [mtch] at h
          obtain ⟨pre1, s1, cp1, hs1, hall1, himp1, hk1⟩ := ih a s cp _ b hra h
          have htake : s.take (s.length - s1.length) = pre1 := by
            rw [hs1, List.length_append, Nat.add_sub_cancel, List.take_left]
          rw [htake] at hk1
          refine ⟨pre1, s1, { cp1 with g1 := some pre1 }, hs1, hall1, ?_, hk1⟩
          intro hcap
          obtain ⟨hg1, hg2⟩ := himp1 hcap
          exact ⟨fun l hl => by injection hl with h2; exact h2 ▸ hall1, hg2⟩
      | grp2 a =>
          have hra : REOnly P a := hro
          simp only [mtch] at h
          obtain ⟨pre1, s1, cp1, hs1, hall1, himp1, hk1⟩ := ih a s cp _ b hra h
          have htake : s.take (s.length - s1.length) = pre1 := by
            rw [hs1, List.length_append, Nat.add_sub_cancel, List.take_left]
          rw [htake] at hk1
          refine ⟨pre1, s1, { cp1 with g2 := some pre1 }, hs1, hall1, ?_, hk1⟩
          intro hcap
          obtain ⟨hg1, hg2⟩ := himp1 hcap
          exact ⟨hg1, fun l hl => by injection hl with h2; exact h2 ▸ hall1⟩

/-- Capture invariant: when every capture group of the regex accepts only
`P`-characters, any successful run of the matcher reaches its continuation
with a capture state at least as well-formed as the input one. -/
theorem mtch_caps {β : Type} (P : Char → Bool) :
    ∀ (fuel : Nat) (r : RE) (s : List Char) (cp : Caps)
      (k : List Char → Caps → Option β) (b : β),
      GroupsOnly P r → mtch fuel r s cp k = some b →
      ∃ s1 cp1, (CapsOK P cp → CapsOK P cp1) ∧ k s1 cp1 = some b := by
  intro fuel
  induction fuel with
  | zero =>
      intro r s cp k b hro h
      simp [mtch] at h
  | succ f ih =>
      intro r s cp k b hro h
      cases r with
      | chr c =>
          cases s with
          | nil => simp [mtch] at h
          | cons a rest =>
              simp only [mtch] at h
              by_cases hac : a = c
              · rw [if_pos hac] at h
                exact ⟨rest, cp, fun x => x, h⟩
              · rw [if_neg hac] at h
                exact Option.noConfusion h
      | cls p =>
          cases s with
          | nil => simp [mtch] at h
          | cons a rest =>
              simp only [mtch] at h
              by_cases hac : p a = true
              · rw [if_pos hac] at h
                exact ⟨rest, cp, fun x => x, h⟩
              · rw [if_neg hac] at h
                exact Option.noConfusion h
      | eps =>
          simp only [mtch] at h
          exact ⟨s, cp, fun x => x, h⟩
      | seq a b2 =>
          have hro2 : GroupsOnly P a ∧ GroupsOnly P b2 := hro
          simp only [mtch] at h
          obtain ⟨s1, cp1, himp1, hk1⟩ := ih a s cp _ b hro2.1 h
          obtain ⟨s2, cp2, himp2, hk2⟩ := ih b2 s1 cp1 k b hro2.2 hk1
          exact ⟨s2, cp2, fun x => himp2 (himp1 x), hk2⟩
      | alt a b2 =>
          have hro2 : GroupsOnly P a ∧ GroupsOnly P b2 := hro
          simp only [mtch] at h
          rcases (obr_eq_some _ _ _).mp h with h1 | ⟨_, h2⟩
          · exact ih a s cp k b hro2.1 h1
          · exact ih b2 s cp k b hro2.2 h2
      | opt a =>
          have hra : GroupsOnly P a := hro
          simp only [mtch] at h
          rcases (obr_eq_some _ _ _).mp h with h1 | ⟨_, h2⟩
          · exact ih a s cp k b hra h1
          · exact ⟨s, cp, fun x => x, h2⟩
      | star a =>
          have hra : GroupsOnly P a := hro
          simp only [mtch] at h
          rcases (obr_eq_some _ _ _).mp h with h1 | ⟨_, h2⟩
          · obtain ⟨s1, cp1, himp1, hk1⟩ := ih a s cp _ b hra h1
            by_cases hlen : s1.length < s.length
            · rw [if_pos hlen] at hk1
              obtain ⟨s2, cp2, himp2, hk2⟩ := ih (RE.star a) s1 cp1 k b hro hk1
              exact ⟨s2, cp2, fun x => himp2 (himp1 x), hk2⟩
            · rw [if_neg hlen] at hk1
              exact Option.noConfusion hk1
          · exact ⟨s, cp, fun x => x, h2⟩
      | grp1 a =>
          have hra : REOnly P a := hro
          simp only [mtch] at h
          obtain ⟨pre1, s1, cp1, hs1, hall1, himp1, hk1⟩ := mtch_consumed P f a s cp _ b hra h
          have htake : s.take (s.length - s1.length) = pre1 := by
            rw [hs1, List.length_append, Nat.add_sub_cancel, List.take_left]
          rw [htake] at hk1
          refine ⟨s1, { cp1 with g1 := some pre1 }, ?_, hk1⟩
          intro hcap
          obtain ⟨hg1, hg2⟩ := himp1 hcap
          exact ⟨fun l hl => by injection hl with h2; exact h2 ▸ hall1, hg2⟩
      | grp2 a =>
          have hra : REOnly P a := hro
          simp only [mtch] at h
          obtain ⟨pre1, s1, cp1, hs1, hall1, himp1, hk1⟩ := mtch_consumed P f a s cp _ b hra h
          have htake : s.take (s.length - s1.length) = pre1 := by
            rw [hs1, List.length_append, Nat.add_sub_cancel, List.take_left]
          rw [htake] at hk1
          refine ⟨s1, { cp1 with g2 := some pre1 }, ?_, hk1⟩
          intro hcap
          obtain ⟨hg1, hg2⟩ := himp1 hcap
          exact ⟨hg1, fun l hl => by injection hl with h2; exact h2 ▸ hall1⟩

/-- Characters that can occur inside a numeral capture. -/
def isNumChar (c : Char) : Bool := c.isDigit || c == '.' || c == ','

/-- The percentage numeral sub-regex accepts numeral characters only. -/
theorem REOnly_numRE : REOnly isNumChar numRE := by
  have hd : REOnly isNumChar dig := by
    show ∀ c, Char.isDigit c = true → isNumChar c = true
    intro c hc
    simp [isNumChar, hc]
  have hs : REOnly isNumChar sepCls := by
    show ∀ c, (c == '.' || c == ',') = true → isNumChar c = true
    intro c hc
    simp only [Bool.or_eq_true, beq_iff_eq] at hc
    rcases hc with rfl | rfl <;> decide
  exact ⟨⟨hd, hd⟩, hs, hd⟩

/-- The currency numeral sub-regex accepts numeral characters only. -/
theorem REOnly_numCurRE : REOnly isNumChar numCurRE := by
  have hd : REOnly isNumChar dig := REOnly_numRE.1.1
  exact ⟨REOnly_numRE, (by decide : isNumChar '.' = true), hd, hd⟩

/-- Literal regexes contain no capture groups. -/
theorem groupsOnly_listLit (P : Char → Bool) (l : List Char) :
    GroupsOnly P (listLit l) := by
  induction l with
  | nil => trivial
  | cons c cs ih => exact ⟨trivial, ih⟩

/-- String literals contain no capture groups. -/
theorem groupsOnly_strLit (P : Char → Bool) (w : String) : GroupsOnly P (strLit w) :=
  groupsOnly_listLit P w.toList

/-- `\s+` contains no capture groups. -/
theorem groupsOnly_sps (P : Char → Bool) : GroupsOnly P sps := ⟨trivial, trivial⟩

/-- `\s*` contains no capture groups. -/
theorem groupsOnly_sps0 (P : Char → Bool) : GroupsOnly P sps0 := trivial

/-- `(?:do|de|sobre)?` contains no capture groups. -/
theorem groupsOnly_doDeSobre (P : Char → Bool) : GroupsOnly P doDeSobre :=
  ⟨groupsOnly_strLit P "do", groupsOnly_strLit P "de", groupsOnly_strLit P "sobre"⟩

/-- `(?:seu)?` contains no capture groups. -/
theorem groupsOnly_optSeu (P : Char → Bool) : GroupsOnly P optSeu :=
  groupsOnly_strLit P "seu"

/-- The common `faturamento` tail contains no capture groups. -/
theorem groupsOnly_tailFaturamento (P : Char → Bool) : GroupsOnly P tailFaturamento :=
  ⟨trivial, groupsOnly_sps P, groupsOnly_doDeSobre P, groupsOnly_sps P,
    groupsOnly_optSeu P, groupsOnly_sps P, groupsOnly_strLit P "faturamento"⟩

/-- `(?:de|no\s+valor\s+de)` contains no capture groups. -/
theorem groupsOnly_deOrNoValorDe (P : Char → Bool) : GroupsOnly P deOrNoValorDe :=
  ⟨groupsOnly_strLit P "de",
    groupsOnly_strLit P "no", groupsOnly_sps P, groupsOnly_strLit P "valor",
    groupsOnly_sps P, groupsOnly_strLit P "de"⟩

/-- `(?:de|ao\s+pagamento\s+de)` contains no capture groups. -/
theorem groupsOnly_deOrAoPagamentoDe (P : Char → Bool) : GroupsOnly P deOrAoPagamentoDe :=
  ⟨groupsOnly_strLit P "de",
    groupsOnly_strLit P "ao", groupsOnly_sps P, groupsOnly_strLit P "pagamento",
    groupsOnly_sps P, groupsOnly_strLit P "de"⟩

/-- Every percentage pattern captures numeral characters only. -/
theorem groupsOnly_padroesPercentual :
    ∀ p ∈ padroesPercentual, GroupsOnly isNumChar p := by
  intro p hp
  simp only [padroesPercentual, List.mem_cons, List.not_mem_nil, or_false] at hp
  rcases hp with rfl | rfl | rfl | rfl | rfl | rfl | rfl | rfl
  · exact ⟨groupsOnly_strLit _ "multa", groupsOnly_sps _, groupsOnly_strLit _ "de",
      groupsOnly_sps _, REOnly_numRE, groupsOnly_tailFaturamento _⟩
  · exact ⟨REOnly_numRE, trivial, groupsOnly_sps _, groupsOnly_doDeSobre _,
      groupsOnly_sps _, groupsOnly_optSeu _, groupsOnly_sps _,
      groupsOnly_strLit _ "faturamento", groupsOnly_sps _,
      RE.alt (strLit "bruto") (strLit "líquido") |> fun _ =>
        (⟨groupsOnly_strLit _ "bruto", groupsOnly_strLit _ "líquido"⟩ :
          GroupsOnly isNumChar (RE.alt (strLit "bruto") (strLit "líquido")))⟩
  · exact ⟨groupsOnly_strLit _ "percentual", groupsOnly_sps _, groupsOnly_strLit _ "de",
      groupsOnly_sps _, REOnly_numRE, groupsOnly_tailFaturamento _⟩
  · exact ⟨groupsOnly_strLit _ "pena", groupsOnly_sps _, groupsOnly_strLit _ "pecuniária",
      groupsOnly_sps _, groupsOnly_deOrNoValorDe _, groupsOnly_sps _, REOnly_numRE,
      groupsOnly_tailFaturamento _⟩
  · exact ⟨groupsOnly_strLit _ "multa", groupsOnly_sps _, groupsOnly_deOrNoValorDe _,
      groupsOnly_sps _, REOnly_numRE, groupsOnly_tailFaturamento _⟩
  · exact ⟨groupsOnly_strLit _ "aplicação", groupsOnly_sps _, groupsOnly_strLit _ "de",
      groupsOnly_sps _, groupsOnly_strLit _ "multa", groupsOnly_sps _,
      groupsOnly_strLit _ "de", groupsOnly_sps _, REOnly_numRE,
      groupsOnly_tailFaturamento _⟩
  · exact ⟨groupsOnly_strLit _ "condenação", groupsOnly_sps _,
      groupsOnly_deOrAoPagamentoDe _, groupsOnly_sps _, groupsOnly_strLit _ "multa",
      groupsOnly_sps _, groupsOnly_strLit _ "de", groupsOnly_sps _, REOnly_numRE,
      groupsOnly_tailFaturamento _⟩
  · exact ⟨groupsOnly_strLit _ "condenação", groupsOnly_sps _,
      groupsOnly_deOrAoPagamentoDe _, groupsOnly_sps _, REOnly_numRE,
      groupsOnly_tailFaturamento _⟩

/-- The captures of a successful anchored match are well-formed whenever the
pattern's groups accept only `P`-characters. -/
theorem firstMatchAt_capsOK (P : Char → Bool) (r : RE) (s s1 : List Char) (cp : Caps)
    (hro : GroupsOnly P r) (h : firstMatchAt r s = some (s1, cp)) : CapsOK P cp := by
  obtain ⟨s2, cp2, himp, hk⟩ :=
    mtch_caps P (fuelFor r s) r s {} (fun a c => some (a, c)) (s1, cp) hro h
  have h3 : cp2 = cp := congrArg Prod.snd (Option.some.inj hk)
  rw [← h3]
  exact himp (capsOK_default P)

/-- Every capture state produced by the `findall` scan is well-formed. -/
theorem findallAux_capsOK (P : Char → Bool) (r : RE) (hro : GroupsOnly P r) :
    ∀ (n : Nat) (s : List Char) (cp : Caps), cp ∈ findallAux r n s → CapsOK P cp := by
  intro n
  induction n with
  | zero =>
      intro s cp hc
      simp [findallAux] at hc
  | succ m ih =>
      intro s cp hc
      simp only [findallAux] at hc
      split at hc
      next s1 cp1 heq =>
        split at hc
        · rcases List.mem_cons.mp hc with rfl | hmem
          · exact firstMatchAt_capsOK P r _ _ _ hro heq
          · exact ih _ cp hmem
        · split at hc
          · rcases List.mem_singleton.mp hc with rfl
            exact firstMatchAt_capsOK P r _ _ _ hro heq
          · rcases List.mem_cons.mp hc with rfl | hmem
            · exact firstMatchAt_capsOK P r _ _ _ hro heq
            · exact ih _ cp hmem
      next heq =>
        split at hc
        · simp at hc
        · exact ih _ cp hc

/-- Every group-1 capture returned by `findall` consists of `P`-characters
when the pattern's groups accept only `P`-characters. -/
theorem findall1_all (P : Char → Bool) (r : RE) (s : List Char) (hro : GroupsOnly P r) :
    ∀ g ∈ findall1 r s, g.all P = true := by
  intro g hg
  simp only [findall1, List.mem_map] at hg
  obtain ⟨cp, hcp, hgeq⟩ := hg
  have hok := findallAux_capsOK P r hro (s.length + 1) s cp hcp
  rcases hg1 : cp.g1 with _ | l
  · rw [← hgeq, hg1]
    rfl
  · rw [← hgeq, hg1]
    exact hok.1 l hg1

/-- The unsigned float body is non-negative. -/
theorem pyFloatCore_nonneg (body : List Char) (v : ℚ) (h : pyFloatCore body = some v) :
    0 ≤ v := by
  unfold pyFloatCore at h
  split at h
  · split at h
    · exact Option.noConfusion h
    · rw [← Option.some.inj h]
      exact Rat.mkRat_nonneg (Int.natCast_nonneg _) _
  · split at h
    · rw [← Option.some.inj h]
      exact Rat.mkRat_nonneg (Int.natCast_nonneg _) _
    · exact Option.noConfusion h
  · exact Option.noConfusion h

/-- `float()` on a string of digits and points returns a non-negative value:
no sign can be consumed. -/
theorem pythonFloat_nonneg (s : List Char) (v : ℚ)
    (hs : ∀ c ∈ s, c.isDigit = true ∨ c = '.') (h : pythonFloat s = some v) : 0 ≤ v := by
  have hsub : ∀ c, c ∈ ((s.dropWhile isPySpace).reverse.dropWhile isPySpace).reverse →
      c ∈ s := by
    intro c hc
    rw [List.mem_reverse] at hc
    have h1 := (List.dropWhile_sublist _).subset hc
    rw [List.mem_reverse] at h1
    exact (List.dropWhile_sublist _).subset h1
  have hhead : ¬(((s.dropWhile isPySpace).reverse.dropWhile isPySpace).reverse.head? =
      some '-') := by
    intro hh
    have hmem : '-' ∈ ((s.dropWhile isPySpace).reverse.dropWhile isPySpace).reverse :=
      List.mem_of_mem_head? hh
    rcases hs '-' (hsub '-' hmem) with h1 | h1
    · exact absurd h1 (by decide)
    · exact absurd h1 (by decide)
  simp only [pythonFloat] at h
  rw [if_neg hhead] at h
  by_cases hp : (((s.dropWhile isPySpace).reverse.dropWhile isPySpace).reverse.head? =
      some '+')
  · rw [if_pos hp] at h
    exact pyFloatCore_nonneg _ v h
  · rw [if_neg hp] at h
    exact pyFloatCore_nonneg _ v h

/-- A successfully converted percentage capture is non-negative. -/
theorem parsePctCapture_nonneg (m : List Char) (v : ℚ)
    (hm : m.all isNumChar = true) (h : parsePctCapture m = some v) : 0 ≤ v := by
  apply pythonFloat_nonneg _ v _ h
  intro c2 hc2
  rw [List.mem_map] at hc2
  obtain ⟨c, hc, hfc⟩ := hc2
  have hnc : isNumChar c = true := List.all_eq_true.mp hm c hc
  by_cases hcomma : c = ','
  · rw [← hfc, if_pos hcomma]
    exact Or.inr rfl
  · rw [← hfc, if_neg hcomma]
    simp only [isNumChar, Bool.or_eq_true, beq_iff_eq] at hnc
    rcases hnc with (hd | hdot) | hcm
    · exact Or.inl hd
    · exact Or.inr hdot
    · exact absurd hcm hcomma

/-- Membership in one step of the percentage inner loop. -/
theorem mem_stepPct (acc : List ℚ) (m : List Char) (v : ℚ) :
    v ∈ stepPct acc m ↔ v ∈ acc ∨ (parsePctCapture m = some v ∧ v ≤ 100) := by
  rcases hps : parsePctCapture m with _ | w
  · simp [stepPct, hps]
  · by_cases hw : w ≤ 100
    · simp only [stepPct, hps, if_pos hw, List.mem_append, List.mem_singleton]
      constructor
      · rintro (h | rfl)
        · exact Or.inl h
        · exact Or.inr ⟨rfl, hw⟩
      · rintro (h | ⟨hv, h2⟩)
        · exact Or.inl h
        · exact Or.inr (Option.some.inj hv).symm
    · simp only [stepPct, hps, if_neg hw]
      constructor
      · exact fun h => Or.inl h
      · rintro (h | ⟨hv, h2⟩)
        · exact h
        · exact absurd h2 (Option.some.inj hv ▸ hw)

/-- Membership in the folded percentage inner loop. -/
theorem mem_foldl_stepPct (ms : List (List Char)) (acc : List ℚ) (v : ℚ) :
    v ∈ ms.foldl stepPct acc ↔
      v ∈ acc ∨ ∃ m ∈ ms, parsePctCapture m = some v ∧ v ≤ 100 := by
  induction ms generalizing acc with
  | nil => simp
  | cons m t ih =>
      rw [List.foldl_cons, ih, mem_stepPct]
      constructor
      · rintro ((h | hp) | ⟨m2, hm2, hp2⟩)
        · exact Or.inl h
        · exact Or.inr ⟨m, List.mem_cons_self m t, hp⟩
        · exact Or.inr ⟨m2, List.mem_cons_of_mem m hm2, hp2⟩
      · rintro (h | ⟨m2, hm2, hp2⟩)
        · exact Or.inl (Or.inl h)
        · rcases List.mem_cons.mp hm2 with rfl | hm3
          · exact Or.inl (Or.inr hp2)
          · exact Or.inr ⟨m2, hm3, hp2⟩

/-- C5: every value in a list returned by `extrair_percentual_multa` lies in
[0, 100]; a captured numeral that fails numeric conversion contributes
nothing to the accumulator, and one whose parsed value exceeds 100 likewise
contributes nothing — both are silently excluded (the step function is total,
so no error is raised). -/
theorem C5_percent_values_bounded (s : String) (l : List ℚ) (v : ℚ)
    (hres : extrair_percentual_multa (.vStr s) = some l) (hv : v ∈ l) :
    (0 ≤ v ∧ v ≤ 100) ∧
    (∀ (m : List Char) (acc : List ℚ), parsePctCapture m = none → stepPct acc m = acc) ∧
    (∀ (m : List Char) (acc : List ℚ) (w : ℚ), parsePctCapture m = some w → ¬w ≤ 100 →
      stepPct acc m = acc) := by
  refine ⟨?_, fun m acc hm => by simp [stepPct, hm],
    fun m acc w hm hw => by simp [stepPct, hm, hw]⟩
  have hl : l = loopPct padroesPercentual (pyLower s.toList) [] := by
    simp only [extrair_percentual_multa] at hres
    by_cases he : (loopPct padroesPercentual (pyLower s.toList) []).isEmpty
    · rw [if_pos he] at hres
      exact Option.noConfusion hres
    · rw [if_neg he] at hres
      exact (Option.some.inj hres).symm
  rw [hl, loopPct_join, List.nil_append] at hv
  obtain ⟨lst, hlst, hvl⟩ := List.mem_flatten.mp hv
  rw [List.mem_map] at hlst
  obtain ⟨p, hp, rfl⟩ := hlst
  rw [mem_foldl_stepPct] at hvl
  rcases hvl with h0 | ⟨m, hm, hparse, hle⟩
  · simp at h0
  · exact ⟨parsePctCapture_nonneg m v
      (findall1_all isNumChar p _ (groupsOnly_padroesPercentual p hp) m hm) hparse, hle⟩

set_option maxRecDepth 100000 in
/-- C5 witness: the bound holds at a concrete extraction. -/
theorem C5_witness :
    ((0 : ℚ) ≤ 10 ∧ (10 : ℚ) ≤ 100) ∧
    (∀ (m : List Char) (acc : List ℚ), parsePctCapture m = none → stepPct acc m = acc) ∧
    (∀ (m : List Char) (acc : List ℚ) (w : ℚ), parsePctCapture m = some w → ¬w ≤ 100 →
      stepPct acc m = acc) :=
  C5_percent_values_bounded "multa de 10% do seu faturamento" [10, 10] 10
    (by decide) (by decide)
